import Mathlib

/-!
Shallow embedding of the analytical polynomial solvers of the `roots` crate
(`src/analytical/*.rs`), over exact real arithmetic: the generic `FloatType`
parameter is instantiated with `ℝ`, `sqrt`/`cbrt`/`acos`/`cos`/`atan`/`sin`
with their real counterparts.  Division, comparison and equality are those of
`ℝ`; every branch of the Rust source is reproduced verbatim.
-/

noncomputable section

namespace RootsLib

/-- `FloatType::two_third_pi`: the constant 2π/3. -/
def two_third_pi : ℝ := 2 * Real.pi / 3

/-- `FloatType::cbrt` default implementation (`src/float.rs`):
`pow(x, 1/3)` extended to negative arguments by sign symmetry. -/
def cbrt (x : ℝ) : ℝ :=
  if x < 0 then -((-x) ^ ((1 : ℝ)/3)) else x ^ ((1 : ℝ)/3)

/-- The `Roots<F>` enum of `src/analytical/roots.rs`: a list of 0 to 4 roots. -/
inductive Roots where
  | No : Roots
  | One : ℝ → Roots
  | Two : ℝ → ℝ → Roots
  | Three : ℝ → ℝ → ℝ → Roots
  | Four : ℝ → ℝ → ℝ → ℝ → Roots
deriving DecidableEq

namespace Roots

/-- `Roots::as_ref`: the underlying slice, as a list. -/
def asList : Roots → List ℝ
  | No => []
  | One a => [a]
  | Two a b => [a, b]
  | Three a b c => [a, b, c]
  | Four a b c d => [a, b, c, d]

/-- The loop body of `Roots::check_new_root`: walks the slice, reporting
whether `new_root` already occurs (stopping at the first element `= new_root`
or `> new_root`) and the number of elements strictly before the stop point. -/
def check_new_root_list (l : List ℝ) (new_root : ℝ) : Bool × Nat :=
  match l with
  | [] => (false, 0)
  | x :: xs =>
    if x = new_root then (true, 0)
    else if x > new_root then (false, 0)
    else
      let r := check_new_root_list xs new_root
      (r.1, r.2 + 1)

/-- `Roots::check_new_root`. -/
def check_new_root (self : Roots) (new_root : ℝ) : Bool × Nat :=
  check_new_root_list self.asList new_root

/-- `Roots::add_new_root`, with the `panic!("Cannot add root")` arm modelled
as `none`. -/
def add_new_root_opt (self : Roots) (new_root : ℝ) : Option Roots :=
  match self with
  | No => some (One new_root)
  | _ =>
    let c := self.check_new_root new_root
    if c.1 then some self
    else
      match self, c.2 with
      | One a, 0 => some (Two new_root a)
      | One a, 1 => some (Two a new_root)
      | Two a b, 0 => some (Three new_root a b)
      | Two a b, 1 => some (Three a new_root b)
      | Two a b, 2 => some (Three a b new_root)
      | Three a b c, 0 => some (Four new_root a b c)
      | Three a b c, 1 => some (Four a new_root b c)
      | Three a b c, 2 => some (Four a b new_root c)
      | Three a b c, 3 => some (Four a b c new_root)
      | _, _ => none

/-- Total version of `Roots::add_new_root`: the unreachable panic arm is
mapped to the unchanged set (no solver call site ever reaches it). -/
def add_new_root (self : Roots) (new_root : ℝ) : Roots :=
  (self.add_new_root_opt new_root).getD self

/-- Modelled from the spec: `biquadratic.rs` calls `Roots::add_sorted`, an
operation absent from `src/`; the spec describes the insert operation as
"a new set containing all prior elements plus `x`, sorted ascending, with `x`
dropped silently if it already exactly equals an existing element", which is
exactly `add_new_root`. -/
def add_sorted (self : Roots) (new_root : ℝ) : Roots :=
  self.add_new_root new_root

/-- The elements are strictly increasing (ascending, no duplicates). -/
def ordered (self : Roots) : Prop :=
  self.asList.Sorted (· < ·)

/-- Number of stored roots. -/
def size (self : Roots) : Nat :=
  self.asList.length

/-- `roots.as_ref().iter().last().unwrap()` of `quartic_depressed.rs`,
total with junk value 0 on the empty set (the `unwrap` panic). -/
def lastD : Roots → ℝ
  | No => 0
  | One a => a
  | Two _ b => b
  | Three _ _ c => c
  | Four _ _ _ d => d

end Roots

open Roots

/-- `find_roots_linear` (`src/analytical/linear.rs`): solves a1*x + a0 = 0. -/
def find_roots_linear (a1 a0 : ℝ) : Roots :=
  if a1 = 0 then
    if a0 = 0 then Roots.One 0 else Roots.No
  else
    Roots.One (-a0 / a1)

/-- The discriminant `a1*a1 - F::four()*a2*a0` of `quadratic.rs`. -/
def quadDiscriminant (a2 a1 a0 : ℝ) : ℝ := a1 * a1 - 4 * a2 * a0

/-- `same_sign` of `quadratic.rs`: `-a1 ± sq` with the sign matching `-a1`. -/
def quadSameSign (a1 sq : ℝ) : ℝ :=
  if a1 < 0 then -a1 + sq else -a1 - sq

/-- `diff_sign` of `quadratic.rs`: `-a1 ∓ sq`, the cancelling combination. -/
def quadDiffSign (a1 sq : ℝ) : ℝ :=
  if a1 < 0 then -a1 - sq else -a1 + sq

/-- `find_roots_quadratic` (`src/analytical/quadratic.rs`):
solves a2*x^2 + a1*x + a0 = 0. -/
def find_roots_quadratic (a2 a1 a0 : ℝ) : Roots :=
  if a2 = 0 then
    find_roots_linear a1 a0
  else
    let discriminant := quadDiscriminant a2 a1 a0
    if discriminant < 0 then Roots.No
    else
      let a2x2 := 2 * a2
      if discriminant = 0 then Roots.One (-a1 / a2x2)
      else
        let sq := Real.sqrt discriminant
        let same_sign := quadSameSign a1 sq
        let diff_sign := quadDiffSign a1 sq
        let p :=
          if |same_sign| > |a2x2| then
            let a0x2 := 2 * a0
            if |diff_sign| > |a2x2| then
              (a0x2 / same_sign, a0x2 / diff_sign)
            else
              (a0x2 / same_sign, same_sign / a2x2)
          else
            (diff_sign / a2x2, same_sign / a2x2)
        if p.1 < p.2 then Roots.Two p.1 p.2 else Roots.Two p.2 p.1

end RootsLib

namespace RootsLib

/-- `find_roots_cubic_depressed` (`src/analytical/cubic_depressed.rs`):
solves x^3 + a1*x + a0 = 0. -/
def find_roots_cubic_depressed (a1 a0 : ℝ) : Roots :=
  if a1 = 0 then Roots.One (-(cbrt a0))
  else if a0 = 0 then
    (find_roots_quadratic 1 0 a1).add_new_root 0
  else
    let d := a0 * a0 / 4 + a1 * a1 * a1 / 27
    if d < 0 then
      let a := Real.sqrt (-4 * a1 / 3)
      let phi := Real.arccos (-4 * a0 / (a * a * a)) / 3
      ((Roots.One (a * Real.cos phi)).add_new_root
        (a * Real.cos (phi + two_third_pi))).add_new_root
        (a * Real.cos (phi - two_third_pi))
    else
      let sqrt_d := Real.sqrt d
      let a0_div_2 := a0 / 2
      let x1 := cbrt (sqrt_d - a0_div_2) - cbrt (sqrt_d + a0_div_2)
      if d = 0 then
        (Roots.One x1).add_new_root a0_div_2
      else
        Roots.One x1

/-- `find_roots_cubic_normalized` (`src/analytical/cubic_normalized.rs`):
solves x^3 + a2*x^2 + a1*x + a0 = 0. -/
def find_roots_cubic_normalized (a2 a1 a0 : ℝ) : Roots :=
  let q := (3 * a1 - a2 * a2) / 9
  let r := (9 * a2 * a1 - 27 * a0 - 2 * a2 * a2 * a2) / 54
  let q3 := q * q * q
  let d := q3 + r * r
  let a2_div_3 := a2 / 3
  if d < 0 then
    let phi_3 := Real.arccos (r / Real.sqrt (-q3)) / 3
    let sqrt_q_2 := 2 * Real.sqrt (-q)
    ((Roots.One (sqrt_q_2 * Real.cos phi_3 - a2_div_3)).add_new_root
      (sqrt_q_2 * Real.cos (phi_3 - two_third_pi) - a2_div_3)).add_new_root
      (sqrt_q_2 * Real.cos (phi_3 + two_third_pi) - a2_div_3)
  else
    let sqrt_d := Real.sqrt d
    let s := cbrt (r + sqrt_d)
    let t := cbrt (r - sqrt_d)
    if s = t then
      if s + t = 0 then
        Roots.One (s + t - a2_div_3)
      else
        (Roots.One (s + t - a2_div_3)).add_new_root (-(s + t) / 2 - a2_div_3)
    else
      Roots.One (s + t - a2_div_3)

/-- `find_roots_cubic` (`src/analytical/cubic.rs`):
solves a3*x^3 + a2*x^2 + a1*x + a0 = 0. -/
def find_roots_cubic (a3 a2 a1 a0 : ℝ) : Roots :=
  if a3 = 0 then
    find_roots_quadratic a2 a1 a0
  else if a2 = 0 then
    find_roots_cubic_depressed (a1 / a3) (a0 / a3)
  else if a3 = 1 then
    find_roots_cubic_normalized a2 a1 a0
  else
    let d := 18 * a3 * a2 * a1 * a0 - 4 * a2 * a2 * a2 * a0 + a2 * a2 * a1 * a1
      - 4 * a3 * a1 * a1 * a1 - 27 * a3 * a3 * a0 * a0
    let d0 := a2 * a2 - 3 * a3 * a1
    let d1 := 2 * a2 * a2 * a2 - 9 * a3 * a2 * a1 + 27 * a3 * a3 * a0
    if d < 0 then
      let sqrt := Real.sqrt (-27 * a3 * a3 * d)
      let c := cbrt ((if d1 < 0 then d1 - sqrt else d1 + sqrt) / 2)
      Roots.One (-(a2 + c + d0 / c) / (3 * a3))
    else if d = 0 then
      if d0 = 0 then
        Roots.One (-a2 / (a3 * 3))
      else
        (Roots.One ((9 * a3 * a0 - a2 * a1) / (d0 * 2))).add_new_root
          ((4 * a3 * a2 * a1 - 9 * a3 * a3 * a0 - a2 * a2 * a2) / (a3 * d0))
    else
      let c3_img := Real.sqrt (27 * a3 * a3 * d) / 2
      let c3_real := d1 / 2
      let c3_module := Real.sqrt (c3_img * c3_img + c3_real * c3_real)
      let c3_phase := 2 * Real.arctan (c3_img / (c3_real + c3_module))
      let c_module := cbrt c3_module
      let c_phase := c3_phase / 3
      let c_real := c_module * Real.cos c_phase
      let c_img := c_module * Real.sin c_phase
      let x0_real := -(a2 + c_real + (d0 * c_real) / (c_module * c_module)) / (3 * a3)
      let e_real := -(1 : ℝ) / 2
      let e_img := Real.sqrt 3 / 2
      let c1_real := c_real * e_real - c_img * e_img
      let c1_img := c_real * e_img + c_img * e_real
      let x1_real := -(a2 + c1_real + (d0 * c1_real) / (c1_real * c1_real + c1_img * c1_img)) / (3 * a3)
      let c2_real := c1_real * e_real - c1_img * e_img
      let c2_img := c1_real * e_img + c1_img * e_real
      let x2_real := -(a2 + c2_real + (d0 * c2_real) / (c2_real * c2_real + c2_img * c2_img)) / (3 * a3)
      ((Roots.One x0_real).add_new_root x1_real).add_new_root x2_real

/-- `find_roots_biquadratic` (`src/analytical/biquadratic.rs`):
solves a4*x^4 + a2*x^2 + a0 = 0.  The Rust `match` arms with guards are
translated as sequentially tested conditions. -/
def find_roots_biquadratic (a4 a2 a0 : ℝ) : Roots :=
  if a4 = 0 then
    find_roots_quadratic a2 0 a0
  else if a0 = 0 then
    (find_roots_quadratic a4 0 a2).add_sorted 0
  else
    match find_roots_quadratic a4 a2 a0 with
    | Roots.One x1 =>
      if x1 = 0 then Roots.One 0
      else if x1 > 0 then Roots.Two (-(Real.sqrt x1)) (Real.sqrt x1)
      else Roots.No
    | Roots.Two x1 x2 =>
      if x1 = 0 then Roots.Three (-(Real.sqrt x2)) 0 (Real.sqrt x2)
      else if x1 ≥ 0 then
        Roots.Four (-(Real.sqrt x2)) (-(Real.sqrt x1)) (Real.sqrt x1) (Real.sqrt x2)
      else if x2 = 0 then Roots.One 0
      else if x2 ≥ 0 then Roots.Two (-(Real.sqrt x2)) (Real.sqrt x2)
      else Roots.No
    | _ => Roots.No

/-- `find_roots_quartic_depressed` (`src/analytical/quartic_depressed.rs`):
solves x^4 + a2*x^2 + a1*x + a0 = 0. -/
def find_roots_quartic_depressed (a2 a1 a0 : ℝ) : Roots :=
  if a1 = 0 then
    find_roots_biquadratic 1 a2 a0
  else if a0 = 0 then
    (find_roots_cubic_normalized 0 a2 a1).add_new_root 0
  else
    let a2_pow_2 := a2 * a2
    let a1_div_2 := a1 / 2
    let b2 := a2 * 5 / 2
    let b1 := 2 * a2_pow_2 - a0
    let b0 := (a2_pow_2 * a2 - a2 * a0 - a1_div_2 * a1_div_2) / 2
    let y := (find_roots_cubic_normalized b2 b1 b0).lastD
    let a2_plus_2y := a2 + 2 * y
    if a2_plus_2y > 0 then
      let sqrt_a2_plus_2y := Real.sqrt a2_plus_2y
      let q0a := a2 + y - a1_div_2 / sqrt_a2_plus_2y
      let q0b := a2 + y + a1_div_2 / sqrt_a2_plus_2y
      (find_roots_quadratic 1 (-sqrt_a2_plus_2y) q0b).asList.foldl
        (fun roots x => roots.add_new_root x)
        (find_roots_quadratic 1 sqrt_a2_plus_2y q0a)
    else
      Roots.No

/-- `find_roots_via_depressed_quartic` (`src/analytical/quartic.rs`). -/
def find_roots_via_depressed_quartic (a4 a3 a2 a1 a0 pp rr dd : ℝ) : Roots :=
  let a4_pow_2 := a4 * a4
  let a4_pow_3 := a4_pow_2 * a4
  let a4_pow_4 := a4_pow_2 * a4_pow_2
  let p := pp / (8 * a4_pow_2)
  let q := rr / (8 * a4_pow_3)
  let r := (dd + 16 * a4_pow_2 * (12 * a0 * a4 - 3 * a1 * a3 + a2 * a2)) / (256 * a4_pow_4)
  (find_roots_quartic_depressed p q r).asList.foldl
    (fun roots y => roots.add_new_root (y - a3 / (4 * a4)))
    Roots.No

/-- `find_roots_quartic` (`src/analytical/quartic.rs`):
solves a4*x^4 + a3*x^3 + a2*x^2 + a1*x + a0 = 0. -/
def find_roots_quartic (a4 a3 a2 a1 a0 : ℝ) : Roots :=
  if a4 = 0 then
    find_roots_cubic a3 a2 a1 a0
  else if a0 = 0 then
    (find_roots_cubic a4 a3 a2 a1).add_new_root 0
  else if a1 = 0 ∧ a3 = 0 then
    find_roots_biquadratic a4 a2 a0
  else
    let discriminant :=
      a4 * a0 * a4 * (256 * a4 * a0 * a0 + a1 * (144 * a2 * a1 - 192 * a3 * a0))
        + a4 * a0 * a2 * a2 * (16 * a2 * a2 - 80 * a3 * a1 - 128 * a4 * a0)
        + (a3 * a3 *
            (a4 * a0 * (144 * a2 * a0 - 6 * a1 * a1)
              + (a0 * (18 * a3 * a2 * a1 - 27 * a3 * a3 * a0 - 4 * a2 * a2 * a2)
                  + a1 * a1 * (a2 * a2 - 4 * a3 * a1))))
        + a4 * a1 * a1 * (18 * a3 * a2 * a1 - 27 * a4 * a1 * a1 - 4 * a2 * a2 * a2)
    let pp := 8 * a4 * a2 - 3 * a3 * a3
    let rr := a3 * a3 * a3 + 8 * a4 * a4 * a1 - 4 * a4 * a3 * a2
    let delta0 := a2 * a2 - 3 * a3 * a1 + 12 * a4 * a0
    let dd := 64 * a4 * a4 * a4 * a0 - 16 * a4 * a4 * a2 * a2 + 16 * a4 * a3 * a3 * a2
      - 16 * a4 * a4 * a3 * a1 - 3 * a3 * a3 * a3 * a3
    let double_root := discriminant = 0
    if double_root then
      let triple_root := double_root ∧ delta0 = 0
      let quadruple_root := triple_root ∧ dd = 0
      let no_roots := dd = 0 ∧ pp > 0 ∧ rr = 0
      if _h : quadruple_root then
        Roots.One (-a3 / (4 * a4))
      else if _h : triple_root then
        let x0 := (-72 * a4 * a4 * a0 + 10 * a4 * a2 * a2 - 3 * a3 * a3 * a2)
          / (9 * (8 * a4 * a4 * a1 - 4 * a4 * a3 * a2 + a3 * a3 * a3))
        (Roots.One x0).add_new_root (-(a3 / a4 + 3 * x0))
      else if _h : no_roots then
        Roots.No
      else
        find_roots_via_depressed_quartic a4 a3 a2 a1 a0 pp rr dd
    else
      let no_roots := pp > 0 ∨ dd > 0
      if _h : no_roots then
        Roots.No
      else
        find_roots_via_depressed_quartic a4 a3 a2 a1 a0 pp rr dd

end RootsLib

end

namespace RootsLib

open Roots

/-- The found-flag of the `check_new_root` loop is the exact-membership test
(on a sorted slice). -/
theorem check_fst_iff (l : List ℝ) (x : ℝ) (hs : l.Sorted (· < ·)) :
    ((check_new_root_list l x).1 = true) ↔ x ∈ l := by
  induction l with
  | nil => simp [check_new_root_list]
  | cons a t ih =>
    rw [List.sorted_cons] at hs
    by_cases h1 : a = x
    · subst h1
      simp [check_new_root_list]
    · by_cases h2 : a > x
      · simp only [check_new_root_list, if_neg h1, if_pos h2]
        simp only [List.mem_cons, false_iff, Bool.false_eq_true]
        rintro (rfl | hmem)
        · exact h1 rfl
        · exact absurd (hs.1 x hmem) (lt_asymm h2)
      · simp only [check_new_root_list, if_neg h1, if_neg h2]
        rw [ih hs.2]
        simp only [List.mem_cons]
        constructor
        · exact Or.inr
        · rintro (rfl | hmem)
          · exact absurd rfl h1
          · exact hmem

/-- Inserting an element already present returns `some self`. -/
theorem add_opt_of_mem (r : Roots) (x : ℝ) (hs : r.ordered) (hm : x ∈ r.asList) :
    r.add_new_root_opt x = some r := by
  rcases r with _ | a | ⟨a, b⟩ | ⟨a, b, c⟩ | ⟨a, b, c, d⟩
  · simp [Roots.asList] at hm
  all_goals
    have hch : (check_new_root_list _ x).1 = true := (check_fst_iff _ x hs).mpr hm
    simp [Roots.add_new_root_opt, Roots.check_new_root, hch]

/-- Inserting a genuinely new element into a sorted set with fewer than four
elements succeeds and produces the sorted union. -/
theorem add_opt_of_not_mem (r : Roots) (x : ℝ) (hs : r.ordered) (hm : x ∉ r.asList)
    (hsz : r.size < 4) :
    ∃ r2, r.add_new_root_opt x = some r2 ∧ r2.ordered ∧ r2.size = r.size + 1 ∧
      ∀ y, y ∈ r2.asList ↔ y = x ∨ y ∈ r.asList := by
  rcases r with _ | a | ⟨a, b⟩ | ⟨a, b, c⟩ | ⟨a, b, c, d⟩
  · refine ⟨Roots.One x, rfl, ?_, ?_, ?_⟩
    · simp [Roots.ordered, Roots.asList]
    · simp [Roots.size, Roots.asList]
    · intro y; simp [Roots.asList]
  · simp only [Roots.asList, List.mem_singleton] at hm
    rcases lt_trichotomy x a with h | h | h
    · refine ⟨Roots.Two x a, ?_, ?_, ?_, ?_⟩
      · simp [Roots.add_new_root_opt, Roots.check_new_root, Roots.asList,
      check_new_root_list, h.ne', h]
      · simp [Roots.ordered, Roots.asList, List.sorted_cons]
        all_goals repeat' apply And.intro
        all_goals linarith
      · simp [Roots.size, Roots.asList]
      · intro y
        simp only [Roots.asList, List.mem_cons, List.mem_singleton, List.not_mem_nil,
          or_false]
        try tauto
    · exact absurd h hm
    · refine ⟨Roots.Two a x, ?_, ?_, ?_, ?_⟩
      · simp [Roots.add_new_root_opt, Roots.check_new_root, Roots.asList,
      check_new_root_list, h.ne, lt_asymm h]
      · simp [Roots.ordered, Roots.asList, List.sorted_cons]
        all_goals repeat' apply And.intro
        all_goals linarith
      · simp [Roots.size, Roots.asList]
      · intro y
        simp only [Roots.asList, List.mem_cons, List.mem_singleton, List.not_mem_nil,
          or_false]
        try tauto
  · have hl : ([a, b] : List ℝ).Sorted (· < ·) := hs
    have hab : a < b := List.rel_of_sorted_cons hl b (by simp)
    simp only [Roots.asList, List.mem_cons, List.mem_singleton, not_or] at hm
    obtain ⟨hm1, hm2, -⟩ := hm
    rcases lt_trichotomy x a with h1 | h1 | h1
    · refine ⟨Roots.Three x a b, ?_, ?_, ?_, ?_⟩
      · simp [Roots.add_new_root_opt, Roots.check_new_root, Roots.asList,
      check_new_root_list, h1.ne', h1]
      · simp [Roots.ordered, Roots.asList, List.sorted_cons]
        all_goals repeat' apply And.intro
        all_goals linarith
      · simp [Roots.size, Roots.asList]
      · intro y
        simp only [Roots.asList, List.mem_cons, List.mem_singleton, List.not_mem_nil,
          or_false]
        try tauto
    · exact absurd h1 hm1
    · rcases lt_trichotomy x b with h2 | h2 | h2
      · refine ⟨Roots.Three a x b, ?_, ?_, ?_, ?_⟩
        · simp [Roots.add_new_root_opt, Roots.check_new_root, Roots.asList,
      check_new_root_list, h1.ne, lt_asymm h1, h2.ne', h2]
        · simp [Roots.ordered, Roots.asList, List.sorted_cons]
          all_goals repeat' apply And.intro
          all_goals linarith
        · simp [Roots.size, Roots.asList]
        · intro y
          simp only [Roots.asList, List.mem_cons, List.mem_singleton, List.not_mem_nil,
            or_false]
          try tauto
      · exact absurd h2 hm2
      · refine ⟨Roots.Three a b x, ?_, ?_, ?_, ?_⟩
        · simp [Roots.add_new_root_opt, Roots.check_new_root, Roots.asList,
      check_new_root_list, h1.ne, lt_asymm h1, h2.ne, lt_asymm h2]
        · simp [Roots.ordered, Roots.asList, List.sorted_cons]
          all_goals repeat' apply And.intro
          all_goals linarith
        · simp [Roots.size, Roots.asList]
        · intro y
          simp only [Roots.asList, List.mem_cons, List.mem_singleton, List.not_mem_nil,
            or_false]
          try tauto
  · have hl : ([a, b, c] : List ℝ).Sorted (· < ·) := hs
    have hab : a < b := List.rel_of_sorted_cons hl b (by simp)
    have hac : a < c := List.rel_of_sorted_cons hl c (by simp)
    have hbc : b < c := List.rel_of_sorted_cons hl.of_cons c (by simp)
    simp only [Roots.asList, List.mem_cons, List.mem_singleton, not_or] at hm
    obtain ⟨hm1, hm2, hm3, -⟩ := hm
    rcases lt_trichotomy x a with h1 | h1 | h1
    · refine ⟨Roots.Four x a b c, ?_, ?_, ?_, ?_⟩
      · simp [Roots.add_new_root_opt, Roots.check_new_root, Roots.asList,
      check_new_root_list, h1.ne', h1]
      · simp [Roots.ordered, Roots.asList, List.sorted_cons]
        all_goals repeat' apply And.intro
        all_goals linarith
      · simp [Roots.size, Roots.asList]
      · intro y
        simp only [Roots.asList, List.mem_cons, List.mem_singleton, List.not_mem_nil,
          or_false]
        try tauto
    · exact absurd h1 hm1
    · rcases lt_trichotomy x b with h2 | h2 | h2
      · refine ⟨Roots.Four a x b c, ?_, ?_, ?_, ?_⟩
        · simp [Roots.add_new_root_opt, Roots.check_new_root, Roots.asList,
      check_new_root_list, h1.ne, lt_asymm h1, h2.ne', h2]
        · simp [Roots.ordered, Roots.asList, List.sorted_cons]
          all_goals repeat' apply And.intro
          all_goals linarith
        · simp [Roots.size, Roots.asList]
        · intro y
          simp only [Roots.asList, List.mem_cons, List.mem_singleton, List.not_mem_nil,
            or_false]
          try tauto
      · exact absurd h2 hm2
      · rcases lt_trichotomy x c with h3 | h3 | h3
        · refine ⟨Roots.Four a b x c, ?_, ?_, ?_, ?_⟩
          · simp [Roots.add_new_root_opt, Roots.check_new_root, Roots.asList,
      check_new_root_list, h1.ne, lt_asymm h1, h2.ne, lt_asymm h2, h3.ne', h3]
          · simp [Roots.ordered, Roots.asList, List.sorted_cons]
            all_goals repeat' apply And.intro
            all_goals linarith
          · simp [Roots.size, Roots.asList]
          · intro y
            simp only [Roots.asList, List.mem_cons, List.mem_singleton, List.not_mem_nil,
              or_false]
            try tauto
        · exact absurd h3 hm3
        · refine ⟨Roots.Four a b c x, ?_, ?_, ?_, ?_⟩
          · simp [Roots.add_new_root_opt, Roots.check_new_root, Roots.asList,
      check_new_root_list, h1.ne, lt_asymm h1, h2.ne, lt_asymm h2, h3.ne, lt_asymm h3]
          · simp [Roots.ordered, Roots.asList, List.sorted_cons]
            all_goals repeat' apply And.intro
            all_goals linarith
          · simp [Roots.size, Roots.asList]
          · intro y
            simp only [Roots.asList, List.mem_cons, List.mem_singleton, List.not_mem_nil,
              or_false]
            try tauto
  · simp [Roots.size, Roots.asList] at hsz

theorem size_le_four (r : Roots) : r.size ≤ 4 := by
  rcases r <;> simp [Roots.size, Roots.asList]

/-- The panic arm of `add_new_root` is reached exactly when the set is full
and the new root is not an exact duplicate. -/
theorem add_opt_none_iff (r : Roots) (x : ℝ) (hs : r.ordered) :
    r.add_new_root_opt x = none ↔ x ∉ r.asList ∧ r.size = 4 := by
  by_cases hm : x ∈ r.asList
  · simp [add_opt_of_mem r x hs hm, hm]
  · by_cases hsz : r.size < 4
    · obtain ⟨r2, he, -, -, -⟩ := add_opt_of_not_mem r x hs hm hsz
      simp only [he, hm, not_false_iff, true_and]
      constructor
      · intro h; exact absurd h (by simp)
      · intro h; omega
    · have h4 : r.size = 4 := le_antisymm (size_le_four r) (not_lt.mp hsz)
      rcases r with _ | a | ⟨a, b⟩ | ⟨a, b, c⟩ | ⟨a, b, c, d⟩ <;>
        simp only [Roots.size, Roots.asList, List.length_nil, List.length_cons,
          List.length_singleton] at h4
      · omega
      · omega
      · omega
      · omega
      · have hch : ¬ ((check_new_root_list (Roots.Four a b c d).asList x).1 = true) := by
          rw [check_fst_iff _ x hs]; exact hm
        rw [Bool.not_eq_true] at hch
        simp [Roots.add_new_root_opt, Roots.check_new_root, hch, hm, Roots.size,
          Roots.asList]
        constructor
        · intro _
          simpa [Roots.asList] using hm
        · intro _
          exact hch

theorem add_new_root_of_mem (r : Roots) (x : ℝ) (hs : r.ordered) (hm : x ∈ r.asList) :
    r.add_new_root x = r := by
  simp [Roots.add_new_root, add_opt_of_mem r x hs hm]

/-- `add_new_root` preserves the strictly-increasing invariant. -/
theorem ordered_add_new_root (r : Roots) (x : ℝ) (hs : r.ordered) :
    (r.add_new_root x).ordered := by
  by_cases hm : x ∈ r.asList
  · rw [add_new_root_of_mem r x hs hm]; exact hs
  · by_cases hsz : r.size < 4
    · obtain ⟨r2, he, ho, -, -⟩ := add_opt_of_not_mem r x hs hm hsz
      simpa [Roots.add_new_root, he] using ho
    · have hn : r.add_new_root_opt x = none :=
        (add_opt_none_iff r x hs).mpr ⟨hm, le_antisymm (size_le_four r) (not_lt.mp hsz)⟩
      simpa [Roots.add_new_root, hn] using hs

/-- Membership after a (non-overflowing) insertion. -/
theorem mem_add_new_root (r : Roots) (x : ℝ) (hs : r.ordered) (hsz : r.size < 4) (y : ℝ) :
    y ∈ (r.add_new_root x).asList ↔ y = x ∨ y ∈ r.asList := by
  by_cases hm : x ∈ r.asList
  · rw [add_new_root_of_mem r x hs hm]
    constructor
    · exact Or.inr
    · rintro (rfl | h)
      · exact hm
      · exact h
  · obtain ⟨r2, he, -, -, hmem⟩ := add_opt_of_not_mem r x hs hm hsz
    simpa [Roots.add_new_root, he] using hmem y

theorem size_add_new_root_le (r : Roots) (x : ℝ) (hs : r.ordered) :
    (r.add_new_root x).size ≤ r.size + 1 := by
  by_cases hm : x ∈ r.asList
  · rw [add_new_root_of_mem r x hs hm]; omega
  · by_cases hsz : r.size < 4
    · obtain ⟨r2, he, -, h1, -⟩ := add_opt_of_not_mem r x hs hm hsz
      simp [Roots.add_new_root, he, h1]
    · have hn : r.add_new_root_opt x = none :=
        (add_opt_none_iff r x hs).mpr ⟨hm, le_antisymm (size_le_four r) (not_lt.mp hsz)⟩
      simp [Roots.add_new_root, hn]

theorem size_le_add_new_root (r : Roots) (x : ℝ) (hs : r.ordered) :
    r.size ≤ (r.add_new_root x).size := by
  by_cases hm : x ∈ r.asList
  · rw [add_new_root_of_mem r x hs hm]
  · by_cases hsz : r.size < 4
    · obtain ⟨r2, he, -, h1, -⟩ := add_opt_of_not_mem r x hs hm hsz
      simp [Roots.add_new_root, he, h1]
    · have hn : r.add_new_root_opt x = none :=
        (add_opt_none_iff r x hs).mpr ⟨hm, le_antisymm (size_le_four r) (not_lt.mp hsz)⟩
      simp [Roots.add_new_root, hn]

theorem add_new_root_ne_no (r : Roots) (x : ℝ) (hs : r.ordered) :
    r.add_new_root x ≠ Roots.No := by
  intro hcontra
  have h0 : (Roots.No).size = 0 := by simp [Roots.size, Roots.asList]
  by_cases hm : x ∈ r.asList
  · rw [add_new_root_of_mem r x hs hm] at hcontra
    subst hcontra
    simp [Roots.asList] at hm
  · by_cases hsz : r.size < 4
    · obtain ⟨r2, he, -, h1, -⟩ := add_opt_of_not_mem r x hs hm hsz
      rw [Roots.add_new_root, he, Option.getD_some] at hcontra
      subst hcontra
      omega
    · have hn : r.add_new_root_opt x = none :=
        (add_opt_none_iff r x hs).mpr ⟨hm, le_antisymm (size_le_four r) (not_lt.mp hsz)⟩
      rw [Roots.add_new_root, hn, Option.getD_none] at hcontra
      subst hcontra
      have := le_antisymm (size_le_four Roots.No) (not_lt.mp hsz)
      omega

/-- In the positive-discriminant branch the divisor-selection trick is exact:
whatever divisor is chosen, the returned pair is `(-a1 ∓ √Δ)/(2·a2)` — the two
classical quadratic roots — in ascending order. -/
theorem quadratic_pos_disc (a2 a1 a0 : ℝ) (h2 : a2 ≠ 0)
    (hd : 0 < quadDiscriminant a2 a1 a0) :
    ∃ u v, u < v ∧ find_roots_quadratic a2 a1 a0 = Roots.Two u v ∧
      ({u, v} : Set ℝ) =
        {(-a1 - Real.sqrt (quadDiscriminant a2 a1 a0)) / (2 * a2),
         (-a1 + Real.sqrt (quadDiscriminant a2 a1 a0)) / (2 * a2)} := by
  have hA0 : (2 * a2) ≠ 0 := mul_ne_zero two_ne_zero h2
  set D := quadDiscriminant a2 a1 a0 with hD
  set sq := Real.sqrt D with hsqdef
  have hsq : 0 < sq := Real.sqrt_pos.mpr hd
  have hsq2 : sq * sq = D := Real.mul_self_sqrt hd.le
  have hD2 : D = a1 * a1 - 4 * a2 * a0 := rfl
  set same := quadSameSign a1 sq with hsame
  set diff := quadDiffSign a1 sq with hdiff
  have hprod : same * diff = 2 * a0 * (2 * a2) := by
    by_cases h : a1 < 0 <;>
        simp only [hsame, hdiff, quadSameSign, quadDiffSign, h, if_true, if_false,
          ite_true, ite_false] <;>
      linear_combination -hsq2 - hD2
  have hne : same ≠ diff := by
    by_cases h : a1 < 0 <;>
        simp only [hsame, hdiff, quadSameSign, quadDiffSign, h, if_true, if_false,
          ite_true, ite_false] <;>
      intro hcontra <;> linarith [hsq]
  have hdivne : diff / (2 * a2) ≠ same / (2 * a2) := by
    intro hcontra
    rw [div_eq_div_iff hA0 hA0] at hcontra
    exact hne (mul_right_cancel₀ hA0 hcontra).symm
  have hset : ({diff / (2 * a2), same / (2 * a2)} : Set ℝ) =
      {(-a1 - sq) / (2 * a2), (-a1 + sq) / (2 * a2)} := by
    by_cases h : a1 < 0
    · simp only [hsame, hdiff, quadSameSign, quadDiffSign, h, if_true, if_false,
        ite_true, ite_false]
    · simp only [hsame, hdiff, quadSameSign, quadDiffSign, h, if_true, if_false,
        ite_true, ite_false]
      exact Set.pair_comm _ _
  have hmain : find_roots_quadratic a2 a1 a0 =
      if diff / (2 * a2) < same / (2 * a2) then
        Roots.Two (diff / (2 * a2)) (same / (2 * a2))
      else
        Roots.Two (same / (2 * a2)) (diff / (2 * a2)) := by
    simp only [find_roots_quadratic]
    simp only [← hD, ← hsqdef, ← hsame, ← hdiff]
    rw [if_neg h2, if_neg (not_lt.mpr hd.le), if_neg hd.ne']
    by_cases hb1 : |same| > |2 * a2|
    · have hsame0 : same ≠ 0 := by
        intro h0
        rw [h0, abs_zero] at hb1
        exact absurd hb1 (not_lt.mpr (abs_nonneg _))
      by_cases hb2 : |diff| > |2 * a2|
      · have hdiff0 : diff ≠ 0 := by
          intro h0
          rw [h0, abs_zero] at hb2
          exact absurd hb2 (not_lt.mpr (abs_nonneg _))
        rw [if_pos hb1, if_pos hb2]
        have he1 : 2 * a0 / same = diff / (2 * a2) := by
          rw [div_eq_div_iff hsame0 hA0]
          linarith [hprod]
        have he2 : 2 * a0 / diff = same / (2 * a2) := by
          rw [div_eq_div_iff hdiff0 hA0]
          linarith [hprod]
        rw [he1, he2]
      · rw [if_pos hb1, if_neg hb2]
        have he1 : 2 * a0 / same = diff / (2 * a2) := by
          rw [div_eq_div_iff hsame0 hA0]
          linarith [hprod]
        rw [he1]
    · rw [if_neg hb1]
  by_cases hlt : diff / (2 * a2) < same / (2 * a2)
  · exact ⟨diff / (2 * a2), same / (2 * a2), hlt, by rw [hmain, if_pos hlt], hset⟩
  · have hgt : same / (2 * a2) < diff / (2 * a2) :=
      lt_of_le_of_ne (not_lt.mp hlt) (Ne.symm hdivne)
    exact ⟨same / (2 * a2), diff / (2 * a2), hgt, by rw [hmain, if_neg hlt],
      (Set.pair_comm _ _).trans hset⟩

theorem ordered_no : (Roots.No).ordered := by
  simp [Roots.ordered, Roots.asList]

theorem ordered_one (x : ℝ) : (Roots.One x).ordered := by
  simp [Roots.ordered, Roots.asList]

theorem ordered_two_lt {u v : ℝ} (h : (Roots.Two u v).ordered) : u < v := by
  simpa [Roots.ordered, Roots.asList, List.sorted_cons] using h

/-- The linear solver returns a sorted set. -/
theorem ordered_linear (a1 a0 : ℝ) : (find_roots_linear a1 a0).ordered := by
  unfold find_roots_linear
  split_ifs <;> simp [Roots.ordered, Roots.asList]

/-- The quadratic solver returns a sorted set. -/
theorem ordered_quadratic (a2 a1 a0 : ℝ) : (find_roots_quadratic a2 a1 a0).ordered := by
  by_cases h2 : a2 = 0
  · simpa [find_roots_quadratic, h2] using ordered_linear a1 a0
  · by_cases hlt : quadDiscriminant a2 a1 a0 < 0
    · simp [find_roots_quadratic, h2, hlt, Roots.ordered, Roots.asList]
    · by_cases heq : quadDiscriminant a2 a1 a0 = 0
      · simp [find_roots_quadratic, h2, hlt, heq, Roots.ordered, Roots.asList]
      · have hd : 0 < quadDiscriminant a2 a1 a0 :=
          lt_of_le_of_ne (not_lt.mp hlt) (Ne.symm heq)
        obtain ⟨u, v, huv, heqq, -⟩ := quadratic_pos_disc a2 a1 a0 h2 hd
        rw [heqq]
        simp [Roots.ordered, Roots.asList, List.sorted_cons, huv]

/-- Folding `add_new_root` over a list preserves sortedness. -/
theorem ordered_foldl_add (f : ℝ → ℝ) (l : List ℝ) (r : Roots) (hr : r.ordered) :
    (l.foldl (fun acc x => acc.add_new_root (f x)) r).ordered := by
  induction l generalizing r with
  | nil => exact hr
  | cons x xs ih => exact ih _ (ordered_add_new_root r (f x) hr)

/-- The depressed-cubic solver returns a sorted set. -/
theorem ordered_cubic_depressed (a1 a0 : ℝ) :
    (find_roots_cubic_depressed a1 a0).ordered := by
  unfold find_roots_cubic_depressed
  dsimp only
  split_ifs
  · exact ordered_one _
  · exact ordered_add_new_root _ _ (ordered_quadratic 1 0 a1)
  · exact ordered_add_new_root _ _ (ordered_add_new_root _ _ (ordered_one _))
  · exact ordered_add_new_root _ _ (ordered_one _)
  · exact ordered_one _

/-- The normalized-cubic solver returns a sorted set. -/
theorem ordered_cubic_normalized (a2 a1 a0 : ℝ) :
    (find_roots_cubic_normalized a2 a1 a0).ordered := by
  unfold find_roots_cubic_normalized
  dsimp only
  split_ifs
  · exact ordered_add_new_root _ _ (ordered_add_new_root _ _ (ordered_one _))
  · exact ordered_one _
  · exact ordered_add_new_root _ _ (ordered_one _)
  · exact ordered_one _

/-- The general cubic solver returns a sorted set. -/
theorem ordered_cubic (a3 a2 a1 a0 : ℝ) : (find_roots_cubic a3 a2 a1 a0).ordered := by
  unfold find_roots_cubic
  dsimp only
  split_ifs
  · exact ordered_quadratic a2 a1 a0
  · exact ordered_cubic_depressed _ _
  · exact ordered_cubic_normalized a2 a1 a0
  · exact ordered_one _
  · exact ordered_one _
  · exact ordered_one _
  · exact ordered_add_new_root _ _ (ordered_one _)
  · exact ordered_add_new_root _ _ (ordered_add_new_root _ _ (ordered_one _))

/-- The biquadratic solver returns a sorted set. -/
theorem ordered_biquadratic (a4 a2 a0 : ℝ) :
    (find_roots_biquadratic a4 a2 a0).ordered := by
  by_cases h4 : a4 = 0
  · simpa [find_roots_biquadratic, h4] using ordered_quadratic a2 0 a0
  · by_cases h0 : a0 = 0
    · simp only [find_roots_biquadratic, h4, h0, if_false, if_true, ite_true, ite_false]
      exact ordered_add_new_root _ _ (ordered_quadratic a4 0 a2)
    · have hq := ordered_quadratic a4 a2 a0
      simp only [find_roots_biquadratic, h4, h0, if_false, ite_false]
      rcases heq : find_roots_quadratic a4 a2 a0 with _ | x1 | ⟨x1, x2⟩ | ⟨x1, x2, x3⟩ | ⟨x1, x2, x3, x4⟩
      · exact ordered_no
      · dsimp only
        split_ifs with hx0 hxpos
        · exact ordered_one 0
        · have hs : 0 < Real.sqrt x1 := Real.sqrt_pos.mpr hxpos
          simp [Roots.ordered, Roots.asList, List.sorted_cons, Real.sqrt_pos]
          all_goals repeat' apply And.intro
          all_goals linarith
        · exact ordered_no
      · rw [heq] at hq
        have h12 : x1 < x2 := ordered_two_lt hq
        dsimp only
        split_ifs with hx10 hx1nonneg hx20 hx2nonneg
        · have h2pos : 0 < x2 := by linarith [h12, hx10.ge]
          have hs : 0 < Real.sqrt x2 := Real.sqrt_pos.mpr h2pos
          simp [Roots.ordered, Roots.asList, List.sorted_cons, Real.sqrt_pos]
          all_goals repeat' apply And.intro
          all_goals linarith
        · have h1pos : 0 < x1 := lt_of_le_of_ne hx1nonneg (Ne.symm hx10)
          have h2pos : 0 < x2 := lt_trans h1pos h12
          have hs1 : 0 < Real.sqrt x1 := Real.sqrt_pos.mpr h1pos
          have hs2 : 0 < Real.sqrt x2 := Real.sqrt_pos.mpr h2pos
          have hs12 : Real.sqrt x1 < Real.sqrt x2 := Real.sqrt_lt_sqrt h1pos.le h12
          simp [Roots.ordered, Roots.asList, List.sorted_cons, Real.sqrt_pos]
          all_goals repeat' apply And.intro
          all_goals linarith
        · exact ordered_one 0
        · have h2pos : 0 < x2 := lt_of_le_of_ne hx2nonneg (Ne.symm hx20)
          have hs : 0 < Real.sqrt x2 := Real.sqrt_pos.mpr h2pos
          simp [Roots.ordered, Roots.asList, List.sorted_cons, Real.sqrt_pos]
          all_goals repeat' apply And.intro
          all_goals linarith
        · exact ordered_no
      · exact ordered_no
      · exact ordered_no

/-- The depressed-quartic solver returns a sorted set. -/
theorem ordered_quartic_depressed (a2 a1 a0 : ℝ) :
    (find_roots_quartic_depressed a2 a1 a0).ordered := by
  unfold find_roots_quartic_depressed
  dsimp only
  split_ifs
  · exact ordered_biquadratic 1 a2 a0
  · exact ordered_add_new_root _ _ (ordered_cubic_normalized 0 a2 a1)
  · exact ordered_foldl_add (fun x => x) _ _ (ordered_quadratic 1 _ _)
  · exact ordered_no

/-- The helper `find_roots_via_depressed_quartic` returns a sorted set. -/
theorem ordered_via_depressed_quartic (a4 a3 a2 a1 a0 pp rr dd : ℝ) :
    (find_roots_via_depressed_quartic a4 a3 a2 a1 a0 pp rr dd).ordered := by
  unfold find_roots_via_depressed_quartic
  dsimp only
  exact ordered_foldl_add _ _ _ ordered_no

/-- The general quartic solver returns a sorted set. -/
theorem ordered_quartic (a4 a3 a2 a1 a0 : ℝ) :
    (find_roots_quartic a4 a3 a2 a1 a0).ordered := by
  unfold find_roots_quartic
  dsimp only
  split_ifs
  · exact ordered_cubic a3 a2 a1 a0
  · exact ordered_add_new_root _ _ (ordered_cubic a4 a3 a2 a1)
  · exact ordered_biquadratic a4 a2 a0
  · exact ordered_one _
  · exact ordered_add_new_root _ _ (ordered_one _)
  · exact ordered_no
  · exact ordered_via_depressed_quartic a4 a3 a2 a1 a0 _ _ _
  · exact ordered_no
  · exact ordered_via_depressed_quartic a4 a3 a2 a1 a0 _ _ _

/-- C1: for every a2 ≠ 0, `find_roots_quadratic` classifies by the sign of the
discriminant a1² - 4·a2·a0: negative → empty set; zero → the single root
-a1/(2·a2); positive → exactly two (distinct, ascending) roots. -/
theorem claim_C1 (a2 a1 a0 : ℝ) (h2 : a2 ≠ 0) :
    (quadDiscriminant a2 a1 a0 < 0 → find_roots_quadratic a2 a1 a0 = Roots.No) ∧
    (quadDiscriminant a2 a1 a0 = 0 →
      find_roots_quadratic a2 a1 a0 = Roots.One (-a1 / (2 * a2))) ∧
    (0 < quadDiscriminant a2 a1 a0 →
      ∃ u v, u < v ∧ find_roots_quadratic a2 a1 a0 = Roots.Two u v) := by
  refine ⟨?_, ?_, ?_⟩
  · intro h
    simp [find_roots_quadratic, h2, h]
  · intro h
    simp [find_roots_quadratic, h2, h]
  · intro h
    obtain ⟨u, v, huv, heq, -⟩ := quadratic_pos_disc a2 a1 a0 h2 h
    exact ⟨u, v, huv, heq⟩

/-- Witness for C1 at a2 = 1, a1 = 0, a0 = 1 (negative discriminant). -/
theorem claim_C1_witness :
    (1 : ℝ) ≠ 0 ∧ quadDiscriminant 1 0 1 < 0 ∧ find_roots_quadratic 1 0 1 = Roots.No :=
  ⟨by norm_num, by norm_num [quadDiscriminant],
    (claim_C1 1 0 1 (by norm_num)).1 (by norm_num [quadDiscriminant])⟩

/-- C3: every root set returned by any of the eight analytical solvers has
strictly increasing elements (so any output with ≥ 2 elements is ascending
with no duplicates). -/
theorem claim_C3 :
    (∀ a1 a0 : ℝ, (find_roots_linear a1 a0).ordered) ∧
    (∀ a2 a1 a0 : ℝ, (find_roots_quadratic a2 a1 a0).ordered) ∧
    (∀ a1 a0 : ℝ, (find_roots_cubic_depressed a1 a0).ordered) ∧
    (∀ a2 a1 a0 : ℝ, (find_roots_cubic_normalized a2 a1 a0).ordered) ∧
    (∀ a3 a2 a1 a0 : ℝ, (find_roots_cubic a3 a2 a1 a0).ordered) ∧
    (∀ a4 a2 a0 : ℝ, (find_roots_biquadratic a4 a2 a0).ordered) ∧
    (∀ a2 a1 a0 : ℝ, (find_roots_quartic_depressed a2 a1 a0).ordered) ∧
    (∀ a4 a3 a2 a1 a0 : ℝ, (find_roots_quartic a4 a3 a2 a1 a0).ordered) :=
  ⟨ordered_linear, ordered_quadratic, ordered_cubic_depressed, ordered_cubic_normalized,
    ordered_cubic, ordered_biquadratic, ordered_quartic_depressed, ordered_quartic⟩

/-- C4: degenerate (zero leading coefficient) inputs are routed to the
next-lower-degree solver, as exact function equalities. -/
theorem claim_C4 :
    (∀ b c : ℝ, find_roots_quadratic 0 b c = find_roots_linear b c) ∧
    (∀ b c d : ℝ, find_roots_cubic 0 b c d = find_roots_quadratic b c d) ∧
    (∀ b c d e : ℝ, find_roots_quartic 0 b c d e = find_roots_cubic b c d e) := by
  refine ⟨?_, ?_, ?_⟩
  · intro b c
    simp [find_roots_quadratic]
  · intro b c d
    simp [find_roots_cubic]
  · intro b c d e
    simp [find_roots_quartic]

/-- C5: on a sorted set, `add_new_root` returns the set unchanged iff the new
value exactly equals an existing element; otherwise, below capacity, it
returns the sorted set of the prior elements plus the new one; and it panics
(the `none` arm) exactly when the insertion would create a fifth distinct
element. -/
theorem claim_C5 (r : Roots) (x : ℝ) (hs : r.ordered) :
    (x ∈ r.asList → r.add_new_root x = r) ∧
    (x ∉ r.asList → r.size < 4 →
      (r.add_new_root x).ordered ∧
        ∀ y, y ∈ (r.add_new_root x).asList ↔ y = x ∨ y ∈ r.asList) ∧
    (r.add_new_root_opt x = none ↔ x ∉ r.asList ∧ r.size = 4) := by
  refine ⟨fun hm => add_new_root_of_mem r x hs hm, fun hm hsz => ?_,
    add_opt_none_iff r x hs⟩
  exact ⟨ordered_add_new_root r x hs, fun y => mem_add_new_root r x hs hsz y⟩

/-- Witness for C5 at the sorted set {0, 1} and the duplicate value 0. -/
theorem claim_C5_witness :
    (Roots.Two 0 1).ordered ∧
      ((0 : ℝ) ∈ (Roots.Two 0 1).asList → (Roots.Two 0 1).add_new_root 0 = Roots.Two 0 1) := by
  have hs : (Roots.Two (0 : ℝ) 1).ordered := by
    simp [Roots.ordered, Roots.asList, List.sorted_cons]
  exact ⟨hs, (claim_C5 (Roots.Two 0 1) 0 hs).1⟩

/-- C9: in the two-root branch (a2 ≠ 0, positive discriminant) every divisor
the code actually divides by is nonzero: 2·a2 always, `same_sign` whenever it
is selected (|same_sign| > |2·a2|), and `diff_sign` whenever it is selected
(additionally |diff_sign| > |2·a2|). -/
theorem claim_C9 (a2 a1 a0 : ℝ) (h2 : a2 ≠ 0) (hd : 0 < quadDiscriminant a2 a1 a0) :
    2 * a2 ≠ 0 ∧
    (|quadSameSign a1 (Real.sqrt (quadDiscriminant a2 a1 a0))| > |2 * a2| →
      quadSameSign a1 (Real.sqrt (quadDiscriminant a2 a1 a0)) ≠ 0) ∧
    (|quadSameSign a1 (Real.sqrt (quadDiscriminant a2 a1 a0))| > |2 * a2| →
      |quadDiffSign a1 (Real.sqrt (quadDiscriminant a2 a1 a0))| > |2 * a2| →
      quadDiffSign a1 (Real.sqrt (quadDiscriminant a2 a1 a0)) ≠ 0) := by
  refine ⟨mul_ne_zero two_ne_zero h2, ?_, ?_⟩
  · intro hb h0
    rw [h0, abs_zero] at hb
    exact absurd hb (not_lt.mpr (abs_nonneg _))
  · intro _ hb h0
    rw [h0, abs_zero] at hb
    exact absurd hb (not_lt.mpr (abs_nonneg _))

/-- Witness for C9 at a2 = 1, a1 = 0, a0 = -1 (discriminant 4 > 0). -/
theorem claim_C9_witness :
    (1 : ℝ) ≠ 0 ∧ 0 < quadDiscriminant 1 0 (-1) ∧ 2 * (1 : ℝ) ≠ 0 :=
  ⟨by norm_num, by norm_num [quadDiscriminant],
    (claim_C9 1 0 (-1) (by norm_num) (by norm_num [quadDiscriminant])).1⟩

/-- C10: the normalized-cubic solver never returns the empty set, so the
`.last().unwrap()` applied to its result inside `find_roots_quartic_depressed`
cannot panic. -/
theorem claim_C10 : ∀ a2 a1 a0 : ℝ, find_roots_cubic_normalized a2 a1 a0 ≠ Roots.No := by
  intro a2 a1 a0
  unfold find_roots_cubic_normalized
  dsimp only
  split_ifs
  · exact add_new_root_ne_no _ _ (ordered_add_new_root _ _ (ordered_one _))
  · simp
  · exact add_new_root_ne_no _ _ (ordered_one _)
  · simp

theorem cbrt_cube (a : ℝ) (ha : 0 ≤ a) : cbrt (a * a * a) = a := by
  have hnn : (0 : ℝ) ≤ a * a * a := mul_nonneg (mul_nonneg ha ha) ha
  have h3 : a * a * a = a ^ (3 : ℝ) := by
    rw [show (3 : ℝ) = ((3 : ℕ) : ℝ) by norm_num, Real.rpow_natCast]
    ring
  rw [cbrt, if_neg (not_lt.mpr hnn), h3, ← Real.rpow_mul ha]
  norm_num

theorem cbrt_neg (x : ℝ) : cbrt (-x) = -cbrt x := by
  rcases lt_trichotomy x 0 with h | h | h
  · rw [cbrt, if_neg (not_lt.mpr (by linarith)), cbrt, if_pos h, neg_neg]
  · subst h
    norm_num [cbrt]
  · rw [cbrt, if_pos (by linarith), cbrt, if_neg (not_lt.mpr h.le), neg_neg]

theorem cbrt_eight : cbrt (8 : ℝ) = 2 := by
  have : (8 : ℝ) = 2 * 2 * 2 := by norm_num
  rw [this, cbrt_cube 2 (by norm_num)]

theorem cbrt_neg_eight : cbrt (-8 : ℝ) = -2 := by
  rw [show (-8 : ℝ) = -(8 : ℝ) by norm_num, cbrt_neg, cbrt_eight]

/-- Evaluation of the depressed-cubic solver at p = -12, q = 16 (a zero
discriminant input): the `D == 0` arm adds `a0/2 = 8` to the simple root -4. -/
theorem eval_cubic_depressed_neg12_16 :
    find_roots_cubic_depressed (-12) 16 = Roots.Two (-4) 8 := by
  unfold find_roots_cubic_depressed
  norm_num [Real.sqrt_zero, Roots.add_new_root, Roots.add_new_root_opt,
    Roots.check_new_root, Roots.asList, check_new_root_list,
    show ((16 : ℝ) * 16 / 4 + (-12) * (-12) * (-12) / 27) = 0 by norm_num,
    show ((0 : ℝ) - 16 / 2) = -8 by norm_num,
    show ((0 : ℝ) + 16 / 2) = 8 by norm_num,
    cbrt_neg_eight, cbrt_eight]

/-- C2: failing input for the claim.  For p = -12, q = 16 the depressed cubic
x³ - 12·x + 16 = (x - 2)²·(x + 4) has simple root -4 and double root 2, and
its discriminant D = q²/4 + p³/27 is exactly 0; the code returns {-4, 8},
where 8 = q/2 is not a root at all and the double root 2 is missing. -/
theorem claim_C2 :
    find_roots_cubic_depressed (-12) 16 = Roots.Two (-4) 8 ∧
    (8 : ℝ) ^ 3 + (-12) * 8 + 16 ≠ 0 ∧
    (2 : ℝ) ^ 3 + (-12) * 2 + 16 = 0 ∧
    (2 : ℝ) ∉ (find_roots_cubic_depressed (-12) 16).asList := by
  have heval := eval_cubic_depressed_neg12_16
  refine ⟨heval, by norm_num, by norm_num, ?_⟩
  rw [heval]
  simp [Roots.asList]
  norm_num

/-- Evaluation of the normalized-cubic solver at (0, -12, 16): it returns the
correct root set {-4, 2} of x³ - 12·x + 16. -/
theorem eval_cubic_normalized_0_neg12_16 :
    find_roots_cubic_normalized 0 (-12) 16 = Roots.Two (-4) 2 := by
  unfold find_roots_cubic_normalized
  norm_num [Real.sqrt_zero, Roots.add_new_root, Roots.add_new_root_opt,
    Roots.check_new_root, Roots.asList, check_new_root_list,
    show ((3 * (-12 : ℝ) - 0 * 0) / 9) = -4 by norm_num,
    show ((9 * (0 : ℝ) * (-12) - 27 * 16 - 2 * 0 * 0 * 0) / 54) = -8 by norm_num,
    show ((-4 : ℝ) * -4 * -4 + -8 * -8) = 0 by norm_num,
    show ((-8 : ℝ) + 0) = -8 by norm_num,
    show ((-8 : ℝ) - 0) = -8 by norm_num,
    cbrt_neg_eight]

/-- C6 counterexample: at a3 = 2, a2 = 0, a1 = -24, a0 = 32 the general cubic
solver routes to the depressed solver, which returns {-4, 8}, while the
normalized solver on the divided coefficients returns {-4, 2}: the two sides
differ, so `find_roots_cubic` does not normalize-and-delegate for every
a3 ≠ 0. -/
theorem claim_C6_counterexample :
    find_roots_cubic 2 0 (-24) 32 ≠
      find_roots_cubic_normalized (0 / 2) (-24 / 2) (32 / 2) := by
  have h1 : find_roots_cubic 2 0 (-24) 32 = Roots.Two (-4) 8 := by
    have hroute : find_roots_cubic 2 0 (-24) 32 =
        find_roots_cubic_depressed (-24 / 2) (32 / 2) := by
      unfold find_roots_cubic
      norm_num
    rw [hroute, show ((-24 : ℝ) / 2) = -12 by norm_num,
      show ((32 : ℝ) / 2) = 16 by norm_num]
    exact eval_cubic_depressed_neg12_16
  have h2 : find_roots_cubic_normalized (0 / 2) (-24 / 2) (32 / 2) =
      Roots.Two (-4) 2 := by
    rw [show ((0 : ℝ) / 2) = 0 by norm_num, show ((-24 : ℝ) / 2) = -12 by norm_num,
      show ((32 : ℝ) / 2) = 16 by norm_num]
    exact eval_cubic_normalized_0_neg12_16
  rw [h1, h2]
  intro h
  injection h with h1 h2
  norm_num at h2

/-- C6 (amended): for a3 ≠ 0, `find_roots_cubic` delegates to the
depressed-cubic solver on the divided coefficients when a2 = 0, and to the
normalized-cubic solver only when a3 = 1 (with a2 ≠ 0); other a3 ≠ 0 inputs
are handled by its own general closed-form branch rather than by
normalize-and-delegate. -/
theorem claim_C6 (a3 a2 a1 a0 : ℝ) (h3 : a3 ≠ 0) :
    (a2 = 0 → find_roots_cubic a3 a2 a1 a0 = find_roots_cubic_depressed (a1 / a3) (a0 / a3)) ∧
    (a3 = 1 → a2 ≠ 0 → find_roots_cubic a3 a2 a1 a0 = find_roots_cubic_normalized a2 a1 a0) := by
  constructor
  · rintro rfl
    simp [find_roots_cubic, h3]
  · rintro rfl h2
    simp [find_roots_cubic, h2]

/-- Witness for C6 (amended) at a3 = 2, a2 = 0. -/
theorem claim_C6_witness :
    (2 : ℝ) ≠ 0 ∧ find_roots_cubic 2 0 3 4 = find_roots_cubic_depressed (3 / 2) (4 / 2) :=
  ⟨by norm_num, (claim_C6 2 0 3 4 (by norm_num)).1 rfl⟩

/-- C8: the quartic 27·x⁴ + 54·x³ - 72·x² + 26·x - 3 = (x+3)·(3x-1)³ is
classified by the zero-discriminant/zero-Δ₀ branch as triple-plus-simple
root, and the solver returns exactly the two-element ascending set
{-3, 1/3}: the triple root collapses to the single element 1/3. -/
theorem claim_C8 : find_roots_quartic 27 54 (-72) 26 (-3) = Roots.Two (-3) (1/3) := by
  unfold find_roots_quartic
  norm_num [Roots.add_new_root, Roots.add_new_root_opt, Roots.check_new_root,
    Roots.asList, check_new_root_list]

/-- The quadratic solver only ever returns 0, 1 or 2 roots. -/
theorem quadratic_shape (a2 a1 a0 : ℝ) :
    find_roots_quadratic a2 a1 a0 = Roots.No ∨
      (∃ x, find_roots_quadratic a2 a1 a0 = Roots.One x) ∨
      ∃ u v, find_roots_quadratic a2 a1 a0 = Roots.Two u v := by
  unfold find_roots_quadratic find_roots_linear
  dsimp only
  split_ifs <;> simp

/-- Exact roots of `find_roots_quadratic a b 0` for b ≠ 0: the set {0, -b/a}. -/
theorem quadratic_c_zero (a b : ℝ) (ha : a ≠ 0) (hb : b ≠ 0) :
    ∃ u v, u < v ∧ find_roots_quadratic a b 0 = Roots.Two u v ∧
      ({u, v} : Set ℝ) = {0, -b / a} := by
  have hQ : quadDiscriminant a b 0 = b * b := by
    simp [quadDiscriminant]
  have hd : 0 < quadDiscriminant a b 0 := by
    rw [hQ]
    exact mul_self_pos.mpr hb
  obtain ⟨u, v, huv, heq, hset⟩ := quadratic_pos_disc a b 0 ha hd
  refine ⟨u, v, huv, heq, ?_⟩
  rw [hset, hQ, Real.sqrt_mul_self_eq_abs]
  rcases abs_cases b with ⟨habs, hsign⟩ | ⟨habs, hsign⟩
  · rw [habs, show (-b - b) / (2 * a) = -b / a by ring_nf,
      show (-b + b) / (2 * a) = 0 by ring_nf]
    exact Set.pair_comm _ _
  · rw [habs, show (-b - -b) / (2 * a) = 0 by ring_nf,
      show (-b + -b) / (2 * a) = -b / a by ring_nf]

/-- Exact roots of `find_roots_quadratic a 0 b` for a·b < 0:
the set {-√(-b/a), √(-b/a)}. -/
theorem quadratic_a1_zero (a b : ℝ) (ha : a ≠ 0) (hab : a * b < 0) :
    ∃ u v, u < v ∧ find_roots_quadratic a 0 b = Roots.Two u v ∧
      ({u, v} : Set ℝ) = {-Real.sqrt (-b / a), Real.sqrt (-b / a)} := by
  have hQ : quadDiscriminant a 0 b = -b / a * (2 * a * (2 * a)) := by
    field_simp [quadDiscriminant]
    ring
  have hpos : 0 < -b / a := by
    have ha2 : 0 < a * a := mul_self_pos.mpr ha
    have hover : -b / a = -(a * b) / (a * a) := by
      field_simp
      ring
    rw [hover]
    exact div_pos (by linarith) ha2
  have hd : 0 < quadDiscriminant a 0 b := by
    rw [hQ]
    have h4 : 0 < 2 * a * (2 * a) := by
      have := mul_self_pos.mpr ha
      nlinarith
    exact mul_pos hpos h4
  obtain ⟨u, v, huv, heq, hset⟩ := quadratic_pos_disc a 0 b ha hd
  have hT : Real.sqrt (quadDiscriminant a 0 b) = Real.sqrt (-b / a) * (2 * |a|) := by
    rw [hQ, Real.sqrt_mul hpos.le, Real.sqrt_mul_self_eq_abs, abs_mul]
    norm_num
  refine ⟨u, v, huv, heq, ?_⟩
  rw [hset, hT]
  have hgen1 : ∀ T : ℝ, (-0 - T * (2 * a)) / (2 * a) = -T := by
    intro T
    field_simp
  have hgen2 : ∀ T : ℝ, (-0 + T * (2 * a)) / (2 * a) = T := by
    intro T
    field_simp
  have hgen3 : ∀ T : ℝ, (-0 - T * (2 * -a)) / (2 * a) = T := by
    intro T
    field_simp
  have hgen4 : ∀ T : ℝ, (-0 + T * (2 * -a)) / (2 * a) = -T := by
    intro T
    field_simp
  rcases abs_cases a with ⟨habs, hsign⟩ | ⟨habs, hsign⟩
  · rw [habs, hgen1, hgen2]
  · rw [habs, hgen3, hgen4]
    exact Set.pair_comm _ _

theorem pair_resolve {u v p q : ℝ} (huv : u < v) (hpq : p < q)
    (h : ({u, v} : Set ℝ) = {p, q}) : u = p ∧ v = q := by
  rcases Set.pair_eq_pair_iff.mp h with ⟨h1, h2⟩ | ⟨h1, h2⟩
  · exact ⟨h1, h2⟩
  · subst h1
    subst h2
    exact absurd hpq (by linarith)

/-- C7: for a ≠ 0, the biquadratic solver's output is exactly the image of the
quadratic solver's roots u under the substitution u = x²: a positive u yields
±√u, a zero u yields 0, a negative u yields nothing. -/
theorem claim_C7 (a b c : ℝ) (ha : a ≠ 0) :
    ∀ x : ℝ, x ∈ (find_roots_biquadratic a b c).asList ↔
      ∃ u ∈ (find_roots_quadratic a b c).asList,
        (0 < u ∧ (x = -Real.sqrt u ∨ x = Real.sqrt u)) ∨ (u = 0 ∧ x = 0) := by
  intro x
  by_cases hc : c = 0
  · subst hc
    have hL : find_roots_biquadratic a b 0 = (find_roots_quadratic a 0 b).add_new_root 0 := by
      simp [find_roots_biquadratic, Roots.add_sorted, ha]
    by_cases hb : b = 0
    · subst hb
      have hq : find_roots_quadratic a 0 0 = Roots.One 0 := by
        simp [find_roots_quadratic, quadDiscriminant, ha]
      rw [hL, hq, add_new_root_of_mem _ _ (ordered_one 0) (by simp [Roots.asList])]
      simp [Roots.asList]
    · obtain ⟨u2, v2, huv2, heq2, hset2⟩ := quadratic_c_zero a b ha hb
      rcases lt_trichotomy (a * b) 0 with hab | hab | hab
      · have hba : 0 < -b / a := by
          have ha2 : 0 < a * a := mul_self_pos.mpr ha
          rw [show -b / a = -(a * b) / (a * a) by field_simp; ring]
          exact div_pos (by linarith) ha2
        obtain ⟨hu2, hv2⟩ := pair_resolve huv2 hba hset2
        subst hu2
        subst hv2
        obtain ⟨u1, v1, huv1, heq1, hset1⟩ := quadratic_a1_zero a b ha hab
        have hsq_pos : 0 < Real.sqrt (-b / a) := Real.sqrt_pos.mpr hba
        obtain ⟨hu1, hv1⟩ := pair_resolve huv1 (by linarith) hset1
        subst hu1
        subst hv1
        rw [hL, heq1]
        have hord1 : (Roots.Two (-Real.sqrt (-b / a)) (Real.sqrt (-b / a))).ordered := by
          simp [Roots.ordered, Roots.asList, List.sorted_cons]
          linarith
        rw [mem_add_new_root _ _ hord1 (by simp [Roots.size, Roots.asList]) x, heq2]
        simp only [Roots.asList, List.mem_cons, List.mem_singleton, List.not_mem_nil,
          or_false]
        constructor
        · rintro (rfl | rfl | rfl)
          · exact ⟨0, Or.inl rfl, Or.inr ⟨rfl, rfl⟩⟩
          · exact ⟨-b / a, Or.inr rfl, Or.inl ⟨hba, Or.inl rfl⟩⟩
          · exact ⟨-b / a, Or.inr rfl, Or.inl ⟨hba, Or.inr rfl⟩⟩
        · rintro ⟨u, hu, hP⟩
          rcases hu with rfl | rfl
          · rcases hP with ⟨h0, -⟩ | ⟨-, rfl⟩
            · exact absurd h0 (lt_irrefl 0)
            · exact Or.inl rfl
          · rcases hP with ⟨-, rfl | rfl⟩ | ⟨h0, -⟩
            · exact Or.inr (Or.inl rfl)
            · exact Or.inr (Or.inr rfl)
            · exact absurd h0 (by linarith)
      · exact absurd hab (mul_ne_zero ha hb)
      · have hba : -b / a < 0 := by
          have ha2 : 0 < a * a := mul_self_pos.mpr ha
          rw [show -b / a = -(a * b) / (a * a) by field_simp; ring]
          exact div_neg_of_neg_of_pos (by linarith) ha2
        have hdneg : quadDiscriminant a 0 b < 0 := by
          rw [show quadDiscriminant a 0 b = -(4 * (a * b)) by simp [quadDiscriminant]; ring]
          linarith
        have hq1 : find_roots_quadratic a 0 b = Roots.No := by
          simp [find_roots_quadratic, ha, hdneg]
        rw [hL, hq1, show (Roots.No).add_new_root 0 = Roots.One 0 from rfl, heq2]
        obtain ⟨hu2, hv2⟩ := pair_resolve huv2 hba (hset2.trans (Set.pair_comm 0 (-b / a)))
        subst hu2
        subst hv2
        simp only [Roots.asList, List.mem_cons, List.mem_singleton, List.not_mem_nil,
          or_false]
        constructor
        · rintro rfl
          exact ⟨0, Or.inr rfl, Or.inr ⟨rfl, rfl⟩⟩
        · rintro ⟨u, hu, hP⟩
          rcases hu with rfl | rfl
          · rcases hP with ⟨h0, -⟩ | ⟨h0, -⟩
            · exact absurd h0 (by linarith)
            · exact absurd h0 (by linarith)
          · rcases hP with ⟨h0, -⟩ | ⟨-, rfl⟩
            · exact absurd h0 (lt_irrefl 0)
            · rfl
  · have hq := ordered_quadratic a b c
    rcases quadratic_shape a b c with hN | ⟨x1, hOne⟩ | ⟨u, v, hTwo⟩
    · simp only [find_roots_biquadratic, ha, hc, if_false, ite_false, hN]
      simp [Roots.asList]
    · simp only [find_roots_biquadratic, ha, hc, if_false, ite_false, hOne]
      try dsimp only
      split_ifs with h10 h1pos
      · subst h10
        simp [Roots.asList]
      · simp only [Roots.asList, List.mem_cons, List.mem_singleton, List.not_mem_nil,
          or_false]
        constructor
        · rintro (rfl | rfl)
          · exact ⟨x1, rfl, Or.inl ⟨h1pos, Or.inl rfl⟩⟩
          · exact ⟨x1, rfl, Or.inl ⟨h1pos, Or.inr rfl⟩⟩
        · rintro ⟨u, hu, hP⟩
          rcases hu with rfl
          rcases hP with ⟨-, rfl | rfl⟩ | ⟨h0, -⟩
          · exact Or.inl rfl
          · exact Or.inr rfl
          · exact absurd h0 h10
      · have h1neg : x1 < 0 := lt_of_le_of_ne (not_lt.mp h1pos) h10
        simp only [Roots.asList, List.not_mem_nil, List.mem_singleton, false_iff,
          not_exists]
        rintro u
        rintro ⟨rfl, hP⟩
        rcases hP with ⟨h0, -⟩ | ⟨h0, -⟩
        · exact absurd h0 (by linarith)
        · exact absurd h0 (by linarith [h1neg])
    · have huv : u < v := by
        rw [hTwo] at hq
        exact ordered_two_lt hq
      simp only [find_roots_biquadratic, ha, hc, if_false, ite_false, hTwo]
      try dsimp only
      split_ifs with h10 h1nn h20 h2nn
      · subst h10
        have hvpos : 0 < v := huv
        have hsv : 0 < Real.sqrt v := Real.sqrt_pos.mpr hvpos
        simp only [Roots.asList, List.mem_cons, List.mem_singleton, List.not_mem_nil,
          or_false]
        constructor
        · rintro (rfl | rfl | rfl)
          · exact ⟨v, Or.inr rfl, Or.inl ⟨hvpos, Or.inl rfl⟩⟩
          · exact ⟨0, Or.inl rfl, Or.inr ⟨rfl, rfl⟩⟩
          · exact ⟨v, Or.inr rfl, Or.inl ⟨hvpos, Or.inr rfl⟩⟩
        · rintro ⟨u, hu, hP⟩
          rcases hu with rfl | rfl
          · rcases hP with ⟨h0, -⟩ | ⟨-, rfl⟩
            · exact absurd h0 (lt_irrefl 0)
            · exact Or.inr (Or.inl rfl)
          · rcases hP with ⟨-, rfl | rfl⟩ | ⟨h0, -⟩
            · exact Or.inl rfl
            · exact Or.inr (Or.inr rfl)
            · exact absurd h0 (by linarith)
      · have hupos : 0 < u := lt_of_le_of_ne h1nn (Ne.symm h10)
        have hvpos : 0 < v := lt_trans hupos huv
        simp only [Roots.asList, List.mem_cons, List.mem_singleton, List.not_mem_nil,
          or_false]
        constructor
        · rintro (rfl | rfl | rfl | rfl)
          · exact ⟨v, Or.inr rfl, Or.inl ⟨hvpos, Or.inl rfl⟩⟩
          · exact ⟨u, Or.inl rfl, Or.inl ⟨hupos, Or.inl rfl⟩⟩
          · exact ⟨u, Or.inl rfl, Or.inl ⟨hupos, Or.inr rfl⟩⟩
          · exact ⟨v, Or.inr rfl, Or.inl ⟨hvpos, Or.inr rfl⟩⟩
        · rintro ⟨w, hw, hP⟩
          rcases hw with rfl | rfl
          · rcases hP with ⟨-, rfl | rfl⟩ | ⟨h0, -⟩
            · exact Or.inr (Or.inl rfl)
            · exact Or.inr (Or.inr (Or.inl rfl))
            · exact absurd h0 (by linarith)
          · rcases hP with ⟨-, rfl | rfl⟩ | ⟨h0, -⟩
            · exact Or.inl rfl
            · exact Or.inr (Or.inr (Or.inr rfl))
            · exact absurd h0 (by linarith)
      · subst h20
        have huneg : u < 0 := lt_of_le_of_ne (not_lt.mp (fun hlt => h1nn hlt.le)) h10
        simp only [Roots.asList, List.mem_cons, List.mem_singleton, List.not_mem_nil,
          or_false]
        constructor
        · rintro rfl
          exact ⟨0, Or.inr rfl, Or.inr ⟨rfl, rfl⟩⟩
        · rintro ⟨w, hw, hP⟩
          rcases hw with rfl | rfl
          · rcases hP with ⟨h0, -⟩ | ⟨h0, -⟩
            · exact absurd h0 (by linarith)
            · exact absurd h0 (by linarith)
          · rcases hP with ⟨h0, -⟩ | ⟨-, rfl⟩
            · exact absurd h0 (lt_irrefl 0)
            · rfl
      · have huneg : u < 0 := by
          rcases lt_trichotomy u 0 with h | h | h
          · exact h
          · exact absurd h h10
          · exact absurd h.le (fun hle => h1nn hle)
        have hvpos : 0 < v := lt_of_le_of_ne h2nn (Ne.symm h20)
        have hsv : 0 < Real.sqrt v := Real.sqrt_pos.mpr hvpos
        simp only [Roots.asList, List.mem_cons, List.mem_singleton, List.not_mem_nil,
          or_false]
        constructor
        · rintro (rfl | rfl)
          · exact ⟨v, Or.inr rfl, Or.inl ⟨hvpos, Or.inl rfl⟩⟩
          · exact ⟨v, Or.inr rfl, Or.inl ⟨hvpos, Or.inr rfl⟩⟩
        · rintro ⟨w, hw, hP⟩
          rcases hw with rfl | rfl
          · rcases hP with ⟨h0, -⟩ | ⟨h0, -⟩
            · exact absurd h0 (by linarith)
            · exact absurd h0 (by linarith)
          · rcases hP with ⟨-, rfl | rfl⟩ | ⟨h0, -⟩
            · exact Or.inl rfl
            · exact Or.inr rfl
            · exact absurd h0 (by linarith)
      · have huneg : u < 0 := by
          rcases lt_trichotomy u 0 with h | h | h
          · exact h
          · exact absurd h h10
          · exact absurd h.le (fun hle => h1nn hle)
        have hvneg : v < 0 := by
          rcases lt_trichotomy v 0 with h | h | h
          · exact h
          · exact absurd h h20
          · exact absurd h.le (fun hle => h2nn hle)
        simp only [Roots.asList, List.not_mem_nil, List.mem_cons, List.mem_singleton,
          false_iff, not_exists, or_false]
        rintro w
        rintro ⟨hw, hP⟩
        rcases hw with rfl | rfl
        · rcases hP with ⟨h0, -⟩ | ⟨h0, -⟩
          · exact absurd h0 (by linarith)
          · exact absurd h0 (by linarith)
        · rcases hP with ⟨h0, -⟩ | ⟨h0, -⟩
          · exact absurd h0 (by linarith)
          · exact absurd h0 (by linarith)

/-- Witness for C7 at a = 1, b = 0, c = -1 with x = 1. -/
theorem claim_C7_witness :
    (1 : ℝ) ≠ 0 ∧
      ((1 : ℝ) ∈ (find_roots_biquadratic 1 0 (-1)).asList ↔
        ∃ u ∈ (find_roots_quadratic 1 0 (-1)).asList,
          (0 < u ∧ ((1 : ℝ) = -Real.sqrt u ∨ (1 : ℝ) = Real.sqrt u)) ∨
            (u = 0 ∧ (1 : ℝ) = 0)) :=
  ⟨by norm_num, claim_C7 1 0 (-1) (by norm_num) 1⟩

end RootsLib
